import Mathlib

/-!
Verification of the ROOT compression wrappers (`core/zstd/src/ZipZSTD.cxx`,
`core/snappy/src/ZipSnappy.cxx`) and of the compressed-size bound query of
the deflate code base.

Byte buffers are modelled as `List Nat` (each element a byte value `< 256` in
the intended uses); the C `int` in/out parameters (`*srcsize`, `*tgtsize`,
`*irep`) are modelled as `Int` with explicit 32-bit wrapping where the code
casts, and `size_t` casts as reduction modulo `2 ^ 64`.

The ZSTD library itself (`ZSTD_compress`, `ZSTD_decompress`,
`ZSTD_getFrameContentSize`, `ZSTD_versionNumber`, `ZSTD_compressBound`) is an
external SDK that is not part of the sampled sources; it is modelled from the
specification as a deterministic, losslessly round-tripping block compressor:
a magic-tagged frame carrying the declared content size followed by a
run-length-encoded payload (the spec's RLE tokenizer strategy).  The wrapper
code under `src/` is translated statement by statement.

The spec's bound query is the repository's own `deflateBound`, embedded
below verbatim from the deflate.c contained in
`cmake/modules/RootFeatures.cmake` (lines 784-839).
-/

/-- `(int)x` in C: wrap an unbounded integer into `[-2^31, 2^31)`. -/
def wrap32 (n : Int) : Int := (n + 2 ^ 31) % 2 ^ 32 - 2 ^ 31

/-- `(size_t)x` for a (sign-extended) C integer: reduction modulo `2^64`. -/
def sizeTOfInt (i : Int) : Nat := (i % 2 ^ 64).toNat

/-- `(unsigned)x` in C: reduction modulo `2^32` (ZipZSTD.cxx line 41). -/
def uint32OfInt (i : Int) : Nat := (i % 2 ^ 32).toNat

/-- Write `data` into `buf` starting at byte offset `off` (memcpy semantics
when `off + data.length ≤ buf.length`). -/
def writeBytes (buf : List Nat) (off : Nat) (data : List Nat) : List Nat :=
  buf.take off ++ data ++ buf.drop (off + data.length)

/-- 3-byte little-endian encoding (the byte stores of ZipZSTD.cxx
lines 59-65: `v & 0xff`, `(v >> 8) & 0xff`, `(v >> 16) & 0xff`). -/
def le24enc (n : Nat) : List Nat := [n % 256, n / 256 % 256, n / 65536 % 256]

/-- Decode 3 bytes as a little-endian integer. -/
def le24dec (l : List Nat) : Nat :=
  l.getD 0 0 + 256 * l.getD 1 0 + 65536 * l.getD 2 0

/-- 4-byte little-endian encoding. -/
def le32enc (n : Nat) : List Nat :=
  [n % 256, n / 256 % 256, n / 65536 % 256, n / 16777216 % 256]

/-- Decode 4 bytes as a little-endian integer. -/
def le32dec (l : List Nat) : Nat :=
  l.getD 0 0 + 256 * l.getD 1 0 + 65536 * l.getD 2 0 + 16777216 * l.getD 3 0

/-- Modelled from the spec: run-length tokenizer, accumulating the open run:
`b` is the byte of the run, `k + 1` its count so far (capped at 255). -/
def rleEncodeAux (b k : Nat) : List Nat → List Nat
  | [] => [k + 1, b]
  | c :: rest =>
    if c = b ∧ k < 254 then rleEncodeAux b (k + 1) rest
    else (k + 1) :: b :: rleEncodeAux c 0 rest

/-- Modelled from the spec: run-length tokenizer ("count repeats of the
immediately preceding byte").  Each token is a pair `(count, byte)` with
`1 ≤ count ≤ 255`. -/
def rleEncode : List Nat → List Nat
  | [] => []
  | b :: rest => rleEncodeAux b 0 rest

/-- Modelled from the spec: inverse of `rleEncode`; fails on a truncated or
zero-count token stream. -/
def rleDecode : List Nat → Option (List Nat)
  | [] => some []
  | [_] => none
  | c :: b :: rest =>
    if c = 0 then none
    else
      match rleDecode rest with
      | some t => some (List.replicate c b ++ t)
      | none => none

/-- The 4 magic bytes tagging a compressed frame (0x28 0xB5 0x2F 0xFD). -/
def zstdMagic : List Nat := [40, 181, 47, 253]

/-- Modelled from the spec: a compressed frame = magic bytes, 4-byte
little-endian declared content size, RLE payload. -/
def zstdFrame (s : List Nat) : List Nat :=
  zstdMagic ++ le32enc s.length ++ rleEncode s

/-- Modelled from the spec: the value `ZSTD_CONTENTSIZE_ERROR`
(`(unsigned long long)-2`) returned when a buffer holds no valid frame. -/
def ZSTD_CONTENTSIZE_ERROR : Nat := 2 ^ 64 - 2

/-- Modelled from the spec: the external SDK's version number; any 1.x.y
version gives major version 1, matching the version byte written on zip. -/
def ZSTD_versionNumber : Nat := 10407

/-- Modelled from the spec: the worst-case frame size of the modelled SDK
codec — 8 frame-overhead bytes plus at worst two payload bytes (one
`(count, byte)` token) per input byte.  Used only to state when a target
buffer is certainly large enough for `ZSTD_compress`; the spec's bound
query proper is `deflateBound` below. -/
def ZSTD_compressBound (n : Nat) : Nat := 8 + 2 * n

/-- Modelled from the spec: one-shot compression into a buffer of capacity
`dstCapacity`; errors (`none`, the model of `ZSTD_isError`) iff the frame
does not fit. -/
def ZSTD_compress (dstCapacity : Nat) (srcBytes : List Nat) (level : Int) :
    Option (List Nat) :=
  if (zstdFrame srcBytes).length ≤ dstCapacity then some (zstdFrame srcBytes)
  else none

/-- Modelled from the spec: read the declared content size of the frame at
the start of `buf` (at most `size` readable bytes); on anything that is not
a frame header, return `ZSTD_CONTENTSIZE_ERROR` as the C code does. -/
def ZSTD_getFrameContentSize (buf : List Nat) (size : Nat) : Nat :=
  let v := buf.take size
  if 8 ≤ v.length ∧ v.take 4 = zstdMagic then le32dec ((v.drop 4).take 4)
  else ZSTD_CONTENTSIZE_ERROR

/-- Modelled from the spec: one-shot decompression; errors (`none`) on a
malformed frame, a content-size mismatch, or when the content exceeds
`dstCapacity`. -/
def ZSTD_decompress (dstCapacity : Nat) (srcBytes : List Nat) :
    Option (List Nat) :=
  if 8 ≤ srcBytes.length ∧ srcBytes.take 4 = zstdMagic then
    match rleDecode (srcBytes.drop 8) with
    | some content =>
      if content.length = le32dec ((srcBytes.drop 4).take 4) ∧
          content.length ≤ dstCapacity then
        some content
      else none
    | none => none
  else none

/-- `static const int kROOTHeaderSize = 9` (ZipZSTD.cxx line 21). -/
def kROOTHeaderSize : Int := 9

/-- The 9-byte ROOT block header written by `R__zipZSTD`
(ZipZSTD.cxx lines 54-65): `'Z' 'S' '\1'`, 3-byte LE deflated size,
3-byte LE inflated size. -/
def ROOTHeader (deflate_size inflate_size : Nat) : List Nat :=
  [90, 83, 1] ++ le24enc deflate_size ++ le24enc inflate_size

/-- The observable state of the five in/out locations of the C wrappers. -/
structure BufState where
  srcsize : Int
  tgtsize : Int
  irep : Int
  src : List Nat
  tgt : List Nat
deriving DecidableEq, Repr

/-- Shallow embedding of `R__zipZSTD` (ZipZSTD.cxx lines 23-69).  `src` and
`tgt` are the byte buffers behind the pointers, `irep` the prior value of
`*irep` (overwritten at line 26). -/
def R__zipZSTD (cxlevel srcsize : Int) (src : List Nat) (tgtsize : Int)
    (tgt : List Nat) (irep : Int) : BufState :=
  -- *irep = 0; early returns leave everything else unchanged.
  if tgtsize ≤ 0 then ⟨srcsize, tgtsize, 0, src, tgt⟩
  else if tgtsize < kROOTHeaderSize then ⟨srcsize, tgtsize, 0, src, tgt⟩
  else
    let in_size : Nat := uint32OfInt srcsize
    let tgtsize1 := tgtsize - kROOTHeaderSize
    match ZSTD_compress (sizeTOfInt tgtsize1)
        (src.take (sizeTOfInt srcsize)) cxlevel with
    | none => ⟨srcsize, tgtsize1, 0, src, tgt⟩
    | some payload =>
      let retval := payload.length
      let tgtsize2 := tgtsize1 - retval
      let tgt1 := writeBytes (writeBytes tgt 9 payload) 0
        (ROOTHeader retval in_size)
      -- *irep = (int)retval + kROOTHeaderSize; if (*irep < 0) *irep = 0;
      let irep1 := wrap32 (wrap32 retval + kROOTHeaderSize)
      ⟨srcsize, tgtsize2, if irep1 < 0 then 0 else irep1, src, tgt1⟩

/-- Shallow embedding of `R__unzipZSTD` (ZipZSTD.cxx lines 71-104).  Note
line 91: the frame content size is read from the TARGET buffer `tgt`, not
from the compressed source. -/
def R__unzipZSTD (srcsize : Int) (src : List Nat) (tgtsize : Int)
    (tgt : List Nat) (irep : Int) : BufState :=
  if src.getD 0 0 = 90 ∧ src.getD 1 0 = 83 then
    if src.getD 2 0 = ZSTD_versionNumber / (100 * 100) then
      let src_unzip := src.drop 9
      let srcsize1 := srcsize - kROOTHeaderSize
      let rSize := ZSTD_getFrameContentSize tgt (sizeTOfInt tgtsize)
      match ZSTD_decompress rSize (src_unzip.take (sizeTOfInt srcsize1)) with
      | none => ⟨srcsize1, tgtsize, 0, src, tgt⟩
      | some content =>
        ⟨srcsize1, tgtsize - content.length, wrap32 content.length, src,
          writeBytes tgt 0 content⟩
    else ⟨srcsize, tgtsize, 0, src, tgt⟩
  else ⟨srcsize, tgtsize, 0, src, tgt⟩

/-- Shallow embedding of `R__zipSnappy` (ZipSnappy.cxx lines 15-17): the
body is empty, every location keeps its prior value. -/
def R__zipSnappy (cxlevel srcsize : Int) (src : List Nat) (tgtsize : Int)
    (tgt : List Nat) (irep : Int) : BufState :=
  ⟨srcsize, tgtsize, irep, src, tgt⟩

/-- Shallow embedding of `R__unzipSnappy` (ZipSnappy.cxx lines 19-21): the
body is empty, every location keeps its prior value. -/
def R__unzipSnappy (srcsize : Int) (src : List Nat) (tgtsize : Int)
    (tgt : List Nat) (irep : Int) : BufState :=
  ⟨srcsize, tgtsize, irep, src, tgt⟩

/-- The fields of the user-supplied gzip header that `deflateBound` reads
(RootFeatures.cmake lines 810-826): `extra` is `some extra_len` when the
`extra` pointer is non-null; `name` and `comment` hold the bytes of the C
strings before their terminating NUL (the `do/while` loops count the NUL
too). -/
structure GzipHeader where
  extra : Option Nat
  name : Option (List Nat)
  comment : Option (List Nat)
  hcrc : Bool
deriving DecidableEq, Repr

/-- The slice of `deflate_state` that `deflateBound` reads: the wrapper
selector `wrap`, `strstart`, the window and hash-table size parameters
(`deflateInit2_` sets `w_bits = windowBits` and `hash_bits = memLevel + 7`,
RootFeatures.cmake lines 515 and 519, so the defaults 15 / 8 give
`w_bits = 15`, `hash_bits = 15`) and the optional gzip header. -/
structure DeflateState where
  wrap : Int
  strstart : Nat
  w_bits : Nat
  hash_bits : Nat
  gzhead : Option GzipHeader
deriving DecidableEq, Repr

/-- Shallow embedding of `uint64_t ZEXPORT deflateBound(strm, sourceLen)`
from the deflate.c embedded in `cmake/modules/RootFeatures.cmake`
(lines 784-839).  `none` models `strm == Z_NULL || strm->state == Z_NULL`;
the right shifts are written as divisions (`x >> 3` = `x / 8`, `x >> 6` =
`x / 64`, `x >> 12` = `x / 4096`, `x >> 14` = `x / 16384`, `x >> 25` =
`x / 33554432`); the `uint64_t` result is reduced modulo `2 ^ 64`. -/
def deflateBound (strm : Option DeflateState) (sourceLen : Nat) : Nat :=
  -- complen = sourceLen + ((sourceLen + 7) >> 3) + ((sourceLen + 63) >> 6) + 5;
  let complen := sourceLen + (sourceLen + 7) / 8 + (sourceLen + 63) / 64 + 5
  match strm with
  | none => (complen + 6) % 2 ^ 64
  | some s =>
    -- switch (s->wrap) computing the wrapper length
    let wraplen : Nat :=
      if s.wrap = 0 then 0
      else if s.wrap = 1 then 6 + (if s.strstart ≠ 0 then 4 else 0)
      else if s.wrap = 2 then
        18 +
          (match s.gzhead with
           | none => 0
           | some gh =>
             (match gh.extra with
              | some extra_len => 2 + extra_len
              | none => 0) +
             (match gh.name with
              | some nm => nm.length + 1
              | none => 0) +
             (match gh.comment with
              | some cm => cm.length + 1
              | none => 0) +
             (if gh.hcrc then 2 else 0))
      else 6
    -- if (s->w_bits != 15 || s->hash_bits != 8 + 7) return complen + wraplen;
    if s.w_bits ≠ 15 ∨ s.hash_bits ≠ 8 + 7 then (complen + wraplen) % 2 ^ 64
    else
      (sourceLen + sourceLen / 4096 + sourceLen / 16384 +
        sourceLen / 33554432 + (13 - 6) + wraplen) % 2 ^ 64

/-- Modelled from the spec: the worst-case wire size of the stored-strategy
fallback in the minimal wrapper — a 2-byte header and a 4-byte checksum
trailer around stored blocks of at most 65535 raw bytes each, every block
carrying 5 overhead bytes (3-bit final/type header padded to a byte
boundary plus 2-byte length and 2-byte complement), at least one block for
the final empty one.  The entropy coder that emits the actual bytes
(trees.c) is not among the sampled sources, so the worst-case output is
modelled from the spec's stored strategy and minimal wire format. -/
def storedWireSize (n : Nat) : Nat := 6 + n + 5 * max 1 ((n + 65534) / 65535)

/-! ## Basic arithmetic and buffer lemmas -/

theorem wrap32_eq_of {n : Int} (h1 : -2 ^ 31 ≤ n) (h2 : n < 2 ^ 31) :
    wrap32 n = n := by
  unfold wrap32
  omega

theorem uint32OfInt_eq {i : Int} (h0 : 0 ≤ i) (h : i < 2 ^ 32) :
    uint32OfInt i = i.toNat := by
  unfold uint32OfInt
  omega

theorem sizeTOfInt_eq {i : Int} (h0 : 0 ≤ i) (h : i < 2 ^ 64) :
    sizeTOfInt i = i.toNat := by
  unfold sizeTOfInt
  omega

theorem le24dec_le24enc {n : Nat} (h : n < 2 ^ 24) : le24dec (le24enc n) = n := by
  simp only [le24enc, le24dec, List.getD_cons_zero, List.getD_cons_succ]
  omega

theorem le32dec_le32enc {n : Nat} (h : n < 2 ^ 32) : le32dec (le32enc n) = n := by
  simp only [le32enc, le32dec, List.getD_cons_zero, List.getD_cons_succ]
  omega

theorem ROOTHeader_length (p q : Nat) : (ROOTHeader p q).length = 9 := by
  simp [ROOTHeader, le24enc]

theorem writeBytes_zero (buf data : List Nat) :
    writeBytes buf 0 data = data ++ buf.drop data.length := by
  simp [writeBytes]

/-- The two-stage write of `R__zipZSTD` (payload at offset 9, then the 9-byte
header at offset 0) yields header ++ payload ++ untouched tail. -/
theorem writeBytes_header_payload (tgt payload hdr : List Nat)
    (hh : hdr.length = 9) (ht : 9 ≤ tgt.length) :
    writeBytes (writeBytes tgt 9 payload) 0 hdr =
      hdr ++ payload ++ tgt.drop (9 + payload.length) := by
  unfold writeBytes
  have h9 : (tgt.take 9).length = 9 := by simp; omega
  simp only [List.take_zero, List.nil_append, Nat.zero_add, hh]
  rw [List.append_assoc, List.drop_left' h9, List.append_assoc]

/-! ## Round-trip and size of the RLE payload -/

theorem rleDecode_rleEncodeAux :
    ∀ (rest : List Nat) (b k : Nat),
      rleDecode (rleEncodeAux b k rest) = some (List.replicate (k + 1) b ++ rest) := by
  intro rest
  induction rest with
  | nil =>
    intro b k
    simp [rleEncodeAux, rleDecode]
  | cons c rest ih =>
    intro b k
    rw [rleEncodeAux]
    by_cases hc : c = b ∧ k < 254
    · rw [if_pos hc, ih b (k + 1)]
      rw [List.replicate_succ' (k + 1) b, hc.1]
      simp
    · rw [if_neg hc, rleDecode]
      simp only [Nat.succ_ne_zero, if_neg, ih c 0]
      simp [List.replicate]
  
theorem rleDecode_rleEncode (s : List Nat) : rleDecode (rleEncode s) = some s := by
  cases s with
  | nil => rfl
  | cons b rest =>
    rw [rleEncode, rleDecode_rleEncodeAux rest b 0]
    simp [List.replicate]

theorem rleEncodeAux_length_le :
    ∀ (rest : List Nat) (b k : Nat),
      (rleEncodeAux b k rest).length ≤ 2 + 2 * rest.length := by
  intro rest
  induction rest with
  | nil => intro b k; simp [rleEncodeAux]
  | cons c rest ih =>
    intro b k
    rw [rleEncodeAux]
    by_cases hc : c = b ∧ k < 254
    · rw [if_pos hc]
      have := ih b (k + 1)
      simp only [List.length_cons]
      omega
    · rw [if_neg hc]
      have := ih c 0
      simp only [List.length_cons]
      omega

theorem rleEncode_length_le (s : List Nat) :
    (rleEncode s).length ≤ 2 * s.length := by
  cases s with
  | nil => simp [rleEncode]
  | cons b rest =>
    rw [rleEncode]
    have := rleEncodeAux_length_le rest b 0
    simp only [List.length_cons]
    omega

/-! ## Frame-level lemmas -/

theorem zstdFrame_length (s : List Nat) :
    (zstdFrame s).length = 8 + (rleEncode s).length := by
  simp [zstdFrame, zstdMagic, le32enc]
  omega

theorem ZSTD_compress_inv {cap : Nat} {s : List Nat} {lvl : Int}
    {payload : List Nat}
    (h : ZSTD_compress cap s lvl = some payload) :
    payload = zstdFrame s ∧ (zstdFrame s).length ≤ cap := by
  unfold ZSTD_compress at h
  split at h
  · exact ⟨(Option.some.injEq _ _ ▸ h).symm, by assumption⟩
  · exact absurd h (by simp)

theorem ZSTD_compress_some {cap : Nat} (s : List Nat) (lvl : Int)
    (h : (zstdFrame s).length ≤ cap) :
    ZSTD_compress cap s lvl = some (zstdFrame s) := by
  unfold ZSTD_compress
  rw [if_pos h]

theorem ZSTD_decompress_frame (s : List Nat) (cap : Nat)
    (h32 : s.length < 2 ^ 32) (hcap : s.length ≤ cap) :
    ZSTD_decompress cap (zstdFrame s) = some s := by
  have hm : ((zstdMagic ++ le32enc s.length) : List Nat).length = 8 := by
    simp [zstdMagic, le32enc]
  have hassoc : zstdFrame s = (zstdMagic ++ le32enc s.length) ++ rleEncode s := by
    rw [zstdFrame, List.append_assoc]
  have hdrop8 : (zstdFrame s).drop 8 = rleEncode s := by
    rw [hassoc, List.drop_left' hm]
  have htake4 : (zstdFrame s).take 4 = zstdMagic := by
    rw [zstdFrame, List.append_assoc,
      List.take_left' (show (zstdMagic : List Nat).length = 4 from rfl)]
  have hdrop4 : ((zstdFrame s).drop 4).take 4 = le32enc s.length := by
    rw [zstdFrame, List.append_assoc,
      List.drop_left' (show (zstdMagic : List Nat).length = 4 from rfl),
      List.take_left' (show (le32enc s.length).length = 4 by simp [le32enc])]
  have hlen : 8 ≤ (zstdFrame s).length := by rw [zstdFrame_length]; omega
  unfold ZSTD_decompress
  rw [if_pos ⟨hlen, htake4⟩]
  simp only [hdrop8, rleDecode_rleEncode]
  rw [hdrop4, le32dec_le32enc h32, if_pos ⟨rfl, hcap⟩]

/-! ## Unfolding `R__zipZSTD` on its success path -/

theorem zipZSTD_of_some (lvl ss ts ir : Int) (src tgt payload : List Nat)
    (h9 : 9 ≤ ts)
    (hc : ZSTD_compress (sizeTOfInt (ts - 9))
      (src.take (sizeTOfInt ss)) lvl = some payload) :
    R__zipZSTD lvl ss src ts tgt ir =
      ⟨ss, ts - 9 - payload.length,
        (if wrap32 (wrap32 payload.length + 9) < 0 then 0
          else wrap32 (wrap32 payload.length + 9)), src,
        writeBytes (writeBytes tgt 9 payload) 0
          (ROOTHeader payload.length (uint32OfInt ss))⟩ := by
  unfold R__zipZSTD kROOTHeaderSize
  rw [if_neg (by omega), if_neg (by omega)]
  simp only [hc]

theorem zipZSTD_irep_toNat_le (p : Nat) :
    (if wrap32 (wrap32 (p : Int) + 9) < 0 then (0 : Int)
      else wrap32 (wrap32 (p : Int) + 9)).toNat ≤ 9 + p := by
  unfold wrap32
  split <;> omega

theorem zipZSTD_irep_formula {p : Nat} (hp : (p : Int) + 9 < 2 ^ 31) :
    (if wrap32 (wrap32 (p : Int) + 9) < 0 then (0 : Int)
      else wrap32 (wrap32 (p : Int) + 9)) = (p : Int) + 9 := by
  unfold wrap32
  omega

theorem take_append_congr (l a b : List Nat) (n : Nat) (h : n ≤ l.length) :
    (l ++ a).take n = (l ++ b).take n := by
  rw [List.take_append_of_le_length h, List.take_append_of_le_length h]

/-! ## The claims -/

/-- **C9**: `R__zipSnappy` and `R__unzipSnappy` are complete no-ops: none of
the pointed-to locations (`*srcsize`, `*tgtsize`, `*irep`) is assigned and
both buffers are left byte-for-byte unchanged, whatever the arguments. -/
theorem snappy_noop (lvl ss ts ir : Int) (src tgt : List Nat) :
    R__zipSnappy lvl ss src ts tgt ir = ⟨ss, ts, ir, src, tgt⟩ ∧
    R__unzipSnappy ss src ts tgt ir = ⟨ss, ts, ir, src, tgt⟩ :=
  ⟨rfl, rfl⟩

/-- For the default parameters the tight-bound branch of `deflateBound` is
taken and evaluates to the closed form. -/
theorem deflateBound_default_eq (s : DeflateState) (n : Nat)
    (hn : n < 2 ^ 60) (hw : s.w_bits = 15) (hh : s.hash_bits = 15)
    (hwrap : s.wrap = 1) (hstart : s.strstart = 0) :
    deflateBound (some s) n =
      n + n / 4096 + n / 16384 + n / 33554432 + 13 := by
  unfold deflateBound
  simp only [hw, hh, hwrap, hstart]
  norm_num
  omega

/-- **C2**: the repository's bound function `deflateBound` (embedded from
the deflate.c in `cmake/modules/RootFeatures.cmake`, line 784) is a pure
function of the source length; for the default parameters (windowBits 15,
memLevel 8, zlib wrapper, before any output) it returns the exact closed
form `n + n/2^12 + n/2^14 + n/2^25 + 13`, and that value bounds the length
of the spec-modelled worst-case compressed output for any input of length
`n` — the stored-block fallback in the minimal wrapper. -/
theorem deflateBound_correct (s : DeflateState) (n : Nat)
    (hn : n < 2 ^ 60) (hw : s.w_bits = 15) (hh : s.hash_bits = 15)
    (hwrap : s.wrap = 1) (hstart : s.strstart = 0) :
    deflateBound (some s) n =
      n + n / 4096 + n / 16384 + n / 33554432 + 13 ∧
    storedWireSize n ≤ deflateBound (some s) n := by
  have he := deflateBound_default_eq s n hn hw hh hwrap hstart
  refine ⟨he, ?_⟩
  rw [he, storedWireSize]
  rcases Nat.eq_zero_or_pos n with h0 | hpos
  · subst h0
    decide
  · have hmax : max 1 ((n + 65534) / 65535) = (n + 65534) / 65535 :=
      Nat.max_eq_right (by omega)
    rw [hmax]
    omega

/-- **C2 witness**: the closed form and the bound at the spec's 1 MiB
scenario, on the default-parameter state. -/
theorem deflateBound_correct_witness :
    deflateBound (some ⟨1, 0, 15, 15, none⟩) 1048576 =
      1048576 + 1048576 / 4096 + 1048576 / 16384 + 1048576 / 33554432 + 13 ∧
    storedWireSize 1048576 ≤ deflateBound (some ⟨1, 0, 15, 15, none⟩) 1048576 :=
  deflateBound_correct ⟨1, 0, 15, 15, none⟩ 1048576 (by decide) rfl rfl rfl rfl

/-- A closed form for the error path of `R__zipZSTD` when the library call
fails after the header space was reserved. -/
theorem zipZSTD_of_none (lvl ss ts ir : Int) (src tgt : List Nat)
    (h9 : 9 ≤ ts)
    (hc : ZSTD_compress (sizeTOfInt (ts - 9))
      (src.take (sizeTOfInt ss)) lvl = none) :
    R__zipZSTD lvl ss src ts tgt ir = ⟨ss, ts - 9, 0, src, tgt⟩ := by
  unfold R__zipZSTD kROOTHeaderSize
  rw [if_neg (by omega), if_neg (by omega)]
  simp only [hc]

set_option maxRecDepth 20000 in
/-- **C3**: compression is deterministic — two calls of `R__zipZSTD` with the
same input bytes, the same level and equally large target buffers (whatever
bytes those buffers held before the call) report the same `*irep` and
produce byte-identical output (the `*irep` produced bytes). -/
theorem zipZSTD_deterministic (lvl ss ts ir1 ir2 : Int) (src t1 t2 : List Nat)
    (h1 : 9 ≤ t1.length) (h2 : 9 ≤ t2.length) :
    (R__zipZSTD lvl ss src ts t1 ir1).irep =
      (R__zipZSTD lvl ss src ts t2 ir2).irep ∧
    (R__zipZSTD lvl ss src ts t1 ir1).tgt.take
        (R__zipZSTD lvl ss src ts t1 ir1).irep.toNat =
      (R__zipZSTD lvl ss src ts t2 ir2).tgt.take
        (R__zipZSTD lvl ss src ts t2 ir2).irep.toNat := by
  by_cases hts0 : ts ≤ 0
  · constructor <;> simp [R__zipZSTD, hts0]
  · by_cases hts9 : ts < 9
    · constructor <;> simp [R__zipZSTD, kROOTHeaderSize, hts0, hts9]
    · cases ho : ZSTD_compress (sizeTOfInt (ts - 9))
          (src.take (sizeTOfInt ss)) lvl with
      | none =>
        rw [zipZSTD_of_none lvl ss ts ir1 src t1 (by omega) ho,
          zipZSTD_of_none lvl ss ts ir2 src t2 (by omega) ho]
        exact ⟨rfl, rfl⟩
      | some payload =>
        rw [zipZSTD_of_some lvl ss ts ir1 src t1 payload (by omega) ho,
          zipZSTD_of_some lvl ss ts ir2 src t2 payload (by omega) ho]
        refine ⟨rfl, ?_⟩
        rw [writeBytes_header_payload t1 payload
            (ROOTHeader payload.length (uint32OfInt ss))
            (ROOTHeader_length payload.length (uint32OfInt ss)) h1,
          writeBytes_header_payload t2 payload
            (ROOTHeader payload.length (uint32OfInt ss))
            (ROOTHeader_length payload.length (uint32OfInt ss)) h2]
        apply take_append_congr
        rw [List.length_append, ROOTHeader_length]
        simp only []
        exact zipZSTD_irep_toNat_le payload.length

/-- **C3 witness**: same source, two target buffers with different stale
contents. -/
theorem zipZSTD_deterministic_witness :
    (R__zipZSTD 1 2 [7, 7] 20 (List.replicate 20 3) 0).irep =
      (R__zipZSTD 1 2 [7, 7] 20 (List.replicate 20 4) 5).irep ∧
    (R__zipZSTD 1 2 [7, 7] 20 (List.replicate 20 3) 0).tgt.take
        (R__zipZSTD 1 2 [7, 7] 20 (List.replicate 20 3) 0).irep.toNat =
      (R__zipZSTD 1 2 [7, 7] 20 (List.replicate 20 4) 5).tgt.take
        (R__zipZSTD 1 2 [7, 7] 20 (List.replicate 20 4) 5).irep.toNat :=
  zipZSTD_deterministic 1 2 20 0 5 [7, 7] (List.replicate 20 3)
    (List.replicate 20 4) (by decide) (by decide)

/-- **C4**: a target buffer smaller than the 9-byte ROOT header (including
`*tgtsize ≤ 0`) is a recoverable, non-corrupting condition: `*irep` is left
at 0 and the target buffer, `*srcsize` and `*tgtsize` are unchanged; and
retrying the same call with any buffer of at least `9 + bound` bytes
succeeds (`*irep > 0`). -/
theorem zipZSTD_bufferError_recoverable (lvl ss ts ir : Int)
    (src tgt : List Nat) :
    (ts < 9 → R__zipZSTD lvl ss src ts tgt ir = ⟨ss, ts, 0, src, tgt⟩) ∧
    (∀ ts2 : Int,
      9 + (ZSTD_compressBound (src.take (sizeTOfInt ss)).length : Int) ≤ ts2 →
      ts2 < 2 ^ 31 → 0 < (R__zipZSTD lvl ss src ts2 tgt ir).irep) := by
  constructor
  · intro hts
    unfold R__zipZSTD kROOTHeaderSize
    by_cases h0 : ts ≤ 0
    · rw [if_pos h0]
    · rw [if_neg h0, if_pos (by omega)]
  · intro ts2 hb h31
    have hb9 : (9 : Int) ≤ ts2 := by
      have : (0 : Int) ≤ (ZSTD_compressBound
          (src.take (sizeTOfInt ss)).length : Int) := by positivity
      omega
    have hsz : sizeTOfInt (ts2 - 9) = (ts2 - 9).toNat :=
      sizeTOfInt_eq (by omega) (by omega)
    have hbound : (zstdFrame (src.take (sizeTOfInt ss))).length ≤
        sizeTOfInt (ts2 - 9) := by
      rw [zstdFrame_length, hsz]
      have h1 := rleEncode_length_le (src.take (sizeTOfInt ss))
      rw [ZSTD_compressBound] at hb
      omega
    have hc := ZSTD_compress_some (src.take (sizeTOfInt ss)) lvl hbound
    rw [zipZSTD_of_some lvl ss ts2 ir src tgt
      (zstdFrame (src.take (sizeTOfInt ss))) hb9 hc]
    simp only []
    rw [zipZSTD_irep_formula (by rw [hsz] at hbound; omega)]
    positivity

/-- **C4 witness**: a 0-byte target fails without touching the state; a
100-byte target for the same 1-byte source succeeds. -/
theorem zipZSTD_bufferError_recoverable_witness :
    R__zipZSTD 1 1 [7] 0 [3, 3, 3] 5 = ⟨1, 0, 0, [7], [3, 3, 3]⟩ ∧
    0 < (R__zipZSTD 1 1 [7] 100 [3, 3, 3] 5).irep :=
  ⟨(zipZSTD_bufferError_recoverable 1 1 0 5 [7] [3, 3, 3]).1 (by decide),
    (zipZSTD_bufferError_recoverable 1 1 0 5 [7] [3, 3, 3]).2 100 (by decide)
      (by decide)⟩

/-- **C5 counterexample**: a successful `R__zipZSTD` run whose first two
output bytes, read as a big-endian 16-bit integer, are NOT divisible by 31:
they are `'Z' 'S'` = 23123 = 31·745 + 28. -/
theorem zipZSTD_header_not_multiple_of_31 :
    0 < (R__zipZSTD 1 1 [42] 100 (List.replicate 100 0) 0).irep ∧
    ¬(256 * (R__zipZSTD 1 1 [42] 100 (List.replicate 100 0) 0).tgt.getD 0 0 +
        (R__zipZSTD 1 1 [42] 100 (List.replicate 100 0) 0).tgt.getD 1 0) %
        31 = 0 := by
  decide

/-- **C5 amended**: whenever `R__zipZSTD` succeeds, the output starts with
ROOT's own 9-byte block header, whose first two bytes are `'Z'` (90) and
`'S'` (83); their big-endian 16-bit value leaves remainder 28 modulo 31
(so the multiple-of-31 two-byte header of the spec's minimal wire format is
not what this wrapper emits). -/
theorem zipZSTD_header_starts_ZS (lvl ss ts ir : Int) (src tgt : List Nat)
    (h : (R__zipZSTD lvl ss src ts tgt ir).irep ≠ 0) :
    (R__zipZSTD lvl ss src ts tgt ir).tgt.getD 0 0 = 90 ∧
    (R__zipZSTD lvl ss src ts tgt ir).tgt.getD 1 0 = 83 ∧
    (256 * (R__zipZSTD lvl ss src ts tgt ir).tgt.getD 0 0 +
      (R__zipZSTD lvl ss src ts tgt ir).tgt.getD 1 0) % 31 = 28 := by
  by_cases hts0 : ts ≤ 0
  · exact absurd (by simp [R__zipZSTD, hts0]) h
  · by_cases hts9 : ts < 9
    · exact absurd (by simp [R__zipZSTD, kROOTHeaderSize, hts0, hts9]) h
    · cases ho : ZSTD_compress (sizeTOfInt (ts - 9))
          (src.take (sizeTOfInt ss)) lvl with
      | none =>
        refine absurd ?_ h
        rw [zipZSTD_of_none lvl ss ts ir src tgt (by omega) ho]
      | some payload =>
        rw [zipZSTD_of_some lvl ss ts ir src tgt payload (by omega) ho]
        simp only []
        rw [writeBytes_zero]
        simp only [ROOTHeader, le24enc, List.cons_append, List.nil_append,
          List.getD_cons_zero, List.getD_cons_succ]
        exact ⟨trivial, trivial, trivial⟩

/-- **C5 amended witness**: the amended statement at a concrete successful
run. -/
theorem zipZSTD_header_starts_ZS_witness :
    (R__zipZSTD 1 1 [42] 100 (List.replicate 100 1) 0).tgt.getD 0 0 = 90 ∧
    (R__zipZSTD 1 1 [42] 100 (List.replicate 100 1) 0).tgt.getD 1 0 = 83 ∧
    (256 * (R__zipZSTD 1 1 [42] 100 (List.replicate 100 1) 0).tgt.getD 0 0 +
      (R__zipZSTD 1 1 [42] 100 (List.replicate 100 1) 0).tgt.getD 1 0) %
      31 = 28 :=
  zipZSTD_header_starts_ZS 1 1 100 0 [42] (List.replicate 100 1) (by decide)

/-- **C8**: on success, the first nine output bytes of `R__zipZSTD` are
`'Z'`, `'S'`, version byte 1, the compressed payload size as a 3-byte
little-endian integer and the original `*srcsize` as a 3-byte little-endian
integer, and `*irep` is the payload size plus 9. -/
theorem zipZSTD_root_header_format (lvl ss ts ir : Int)
    (src tgt payload : List Nat)
    (h9 : 9 ≤ ts) (h31 : ts < 2 ^ 31) (htgt : 9 ≤ tgt.length)
    (hc : ZSTD_compress (sizeTOfInt (ts - 9))
      (src.take (sizeTOfInt ss)) lvl = some payload)
    (hp : payload.length < 2 ^ 24) (hss0 : 0 ≤ ss) (hss : ss < 2 ^ 24) :
    0 < (R__zipZSTD lvl ss src ts tgt ir).irep ∧
    (R__zipZSTD lvl ss src ts tgt ir).irep = (payload.length : Int) + 9 ∧
    (R__zipZSTD lvl ss src ts tgt ir).tgt.take 9 =
      [90, 83, 1] ++ le24enc payload.length ++ le24enc ss.toNat ∧
    le24dec (((R__zipZSTD lvl ss src ts tgt ir).tgt.drop 3).take 3) =
      payload.length ∧
    le24dec (((R__zipZSTD lvl ss src ts tgt ir).tgt.drop 6).take 3) =
      ss.toNat := by
  have hple : payload.length ≤ (ts - 9).toNat := by
    obtain ⟨hpay, hlen⟩ := ZSTD_compress_inv hc
    have hsz : sizeTOfInt (ts - 9) = (ts - 9).toNat :=
      sizeTOfInt_eq (by omega) (by omega)
    rw [hsz] at hlen
    rw [hpay]
    exact hlen
  have hlt : (payload.length : Int) + 9 < 2 ^ 31 := by omega
  rw [zipZSTD_of_some lvl ss ts ir src tgt payload h9 hc]
  simp only []
  rw [zipZSTD_irep_formula hlt,
    writeBytes_header_payload tgt payload
      (ROOTHeader payload.length (uint32OfInt ss))
      (ROOTHeader_length payload.length (uint32OfInt ss)) htgt,
    uint32OfInt_eq hss0 (by omega)]
  refine ⟨by positivity, rfl, ?_, ?_, ?_⟩
  · rw [List.append_assoc,
      List.take_left' (ROOTHeader_length payload.length ss.toNat)]
    rfl
  · simp only [ROOTHeader, le24enc, le24dec, List.cons_append,
      List.nil_append, List.drop_succ_cons, List.drop_zero,
      List.take_succ_cons, List.take_zero, List.getD_cons_zero,
      List.getD_cons_succ]
    omega
  · simp only [ROOTHeader, le24enc, le24dec, List.cons_append,
      List.nil_append, List.drop_succ_cons, List.drop_zero,
      List.take_succ_cons, List.take_zero, List.getD_cons_zero,
      List.getD_cons_succ]
    omega

/-- **C8 witness**: the header format at a concrete successful run
(source `[42]`, payload = the 10-byte frame for `[42]`). -/
theorem zipZSTD_root_header_format_witness :
    0 < (R__zipZSTD 2 1 [42] 100 (List.replicate 100 6) 0).irep ∧
    (R__zipZSTD 2 1 [42] 100 (List.replicate 100 6) 0).irep =
      ((10 : Nat) : Int) + 9 ∧
    (R__zipZSTD 2 1 [42] 100 (List.replicate 100 6) 0).tgt.take 9 =
      [90, 83, 1] ++ le24enc 10 ++ le24enc (1 : Int).toNat ∧
    le24dec (((R__zipZSTD 2 1 [42] 100 (List.replicate 100 6) 0).tgt.drop
      3).take 3) = 10 ∧
    le24dec (((R__zipZSTD 2 1 [42] 100 (List.replicate 100 6) 0).tgt.drop
      6).take 3) = (1 : Int).toNat := by
  have h := zipZSTD_root_header_format 2 1 100 0 [42] (List.replicate 100 6)
    [40, 181, 47, 253, 1, 0, 0, 0, 1, 42] (by decide) (by decide) (by decide)
    (by decide) (by decide) (by decide) (by decide)
  have hl : ([40, 181, 47, 253, 1, 0, 0, 0, 1, 42] : List Nat).length = 10 :=
    by decide
  rw [hl] at h
  exact h

/-- Decompressing ROOT header + empty-content frame: `R__unzipZSTD` reports
0 output bytes and leaves the target buffer unchanged, for any target. -/
theorem unzipZSTD_empty_frame (ts2 ir2 : Int) (tgt2 : List Nat) :
    R__unzipZSTD 17 [90, 83, 1, 8, 0, 0, 0, 0, 0, 40, 181, 47, 253, 0, 0, 0, 0]
        ts2 tgt2 ir2 =
      ⟨8, ts2, 0, [90, 83, 1, 8, 0, 0, 0, 0, 0, 40, 181, 47, 253, 0, 0, 0, 0],
        tgt2⟩ := by
  have hsrc : (([90, 83, 1, 8, 0, 0, 0, 0, 0, 40, 181, 47, 253, 0, 0, 0, 0] :
      List Nat).drop 9).take (sizeTOfInt (17 - 9)) =
      [40, 181, 47, 253, 0, 0, 0, 0] := by decide
  have hdec : ∀ cap : Nat,
      ZSTD_decompress cap [40, 181, 47, 253, 0, 0, 0, 0] = some [] := by
    intro cap
    unfold ZSTD_decompress
    rw [if_pos (by decide)]
    have h8 : (([40, 181, 47, 253, 0, 0, 0, 0] : List Nat)).drop 8 = [] := by
      decide
    rw [h8]
    simp only [rleDecode]
    rw [if_pos (by exact ⟨by decide, Nat.zero_le cap⟩)]
  have hw : wrap32 ((0 : Nat) : Int) = 0 := by decide
  unfold R__unzipZSTD
  rw [if_pos (by decide), if_pos (by decide)]
  simp only [kROOTHeaderSize]
  simp only [hsrc, hdec, List.length_nil, hw, writeBytes, List.take_zero,
    List.drop_zero, List.nil_append, List.append_nil]
  norm_num

/-- **C6**: compressing the empty input (with `*srcsize = 0`) into a large
enough target succeeds (`*irep = 17 > 0`) and emits only the 9-byte ROOT
header plus the 8 frame header/trailer bytes of an empty frame — no payload
tokens; decompressing those 17 bytes reports 0 output bytes. -/
theorem zipZSTD_empty_input (lvl ts ts2 ir ir2 : Int) (tgt tgt2 : List Nat)
    (h17 : 17 ≤ ts) (h31 : ts < 2 ^ 31) (htgt : 9 ≤ tgt.length) :
    (R__zipZSTD lvl 0 [] ts tgt ir).irep = 17 ∧
    (R__zipZSTD lvl 0 [] ts tgt ir).tgt.take 17 =
      [90, 83, 1, 8, 0, 0, 0, 0, 0, 40, 181, 47, 253, 0, 0, 0, 0] ∧
    (R__unzipZSTD 17 ((R__zipZSTD lvl 0 [] ts tgt ir).tgt.take 17) ts2 tgt2
      ir2).irep = 0 ∧
    (R__unzipZSTD 17 ((R__zipZSTD lvl 0 [] ts tgt ir).tgt.take 17) ts2 tgt2
      ir2).tgt = tgt2 := by
  have hcap : (zstdFrame ([] : List Nat)).length ≤ sizeTOfInt (ts - 9) := by
    rw [sizeTOfInt_eq (show (0 : Int) ≤ ts - 9 by omega) (by omega)]
    have : (zstdFrame ([] : List Nat)).length = 8 := by decide
    omega
  have hc : ZSTD_compress (sizeTOfInt (ts - 9))
      (([] : List Nat).take (sizeTOfInt 0)) lvl =
      some (zstdFrame []) := by
    rw [List.take_nil]
    exact ZSTD_compress_some [] lvl hcap
  rw [zipZSTD_of_some lvl 0 ts ir [] tgt (zstdFrame []) (by omega) hc]
  simp only []
  rw [writeBytes_header_payload tgt (zstdFrame [])
    (ROOTHeader (zstdFrame []).length (uint32OfInt 0))
    (ROOTHeader_length (zstdFrame []).length (uint32OfInt 0)) htgt]
  have hhdr : ROOTHeader (zstdFrame []).length (uint32OfInt 0) ++
      zstdFrame [] =
      [90, 83, 1, 8, 0, 0, 0, 0, 0, 40, 181, 47, 253, 0, 0, 0, 0] := by
    decide
  have htk : ∀ rest : List Nat,
      ((ROOTHeader (zstdFrame []).length (uint32OfInt 0) ++ zstdFrame []) ++
        rest).take 17 =
      [90, 83, 1, 8, 0, 0, 0, 0, 0, 40, 181, 47, 253, 0, 0, 0, 0] := by
    intro rest
    rw [List.take_append_of_le_length (by rw [hhdr]; decide), hhdr]
    decide
  have hirep : (if wrap32 (wrap32 ((zstdFrame ([] : List Nat)).length : Int)
      + 9) < 0 then (0 : Int)
      else wrap32 (wrap32 ((zstdFrame ([] : List Nat)).length : Int) + 9)) =
      17 := by decide
  refine ⟨hirep, htk _, ?_, ?_⟩
  · rw [htk, unzipZSTD_empty_frame]
  · rw [htk, unzipZSTD_empty_frame]

/-- **C6 witness**: the empty-input scenario at concrete buffers. -/
theorem zipZSTD_empty_input_witness :
    (R__zipZSTD 4 0 [] 30 (List.replicate 30 2) 9).irep = 17 ∧
    (R__zipZSTD 4 0 [] 30 (List.replicate 30 2) 9).tgt.take 17 =
      [90, 83, 1, 8, 0, 0, 0, 0, 0, 40, 181, 47, 253, 0, 0, 0, 0] ∧
    (R__unzipZSTD 17 ((R__zipZSTD 4 0 [] 30 (List.replicate 30 2) 9).tgt.take
      17) 12 [1, 2, 3] 5).irep = 0 ∧
    (R__unzipZSTD 17 ((R__zipZSTD 4 0 [] 30 (List.replicate 30 2) 9).tgt.take
      17) 12 [1, 2, 3] 5).tgt = [1, 2, 3] :=
  zipZSTD_empty_input 4 30 12 9 5 (List.replicate 30 2) [1, 2, 3]
    (by decide) (by decide) (by decide)

/-- **C1**: the round-trip fails on the code as written.  `R__zipZSTD`
compresses `S = [1,…,8]` successfully (`*irep = 33`), but `R__unzipZSTD`
computes the decompression capacity with
`ZSTD_getFrameContentSize(tgt, *tgtsize)` — reading the TARGET buffer
(ZipZSTD.cxx line 91) instead of the compressed source.  With a target
buffer of exactly `len(S) = 8` bytes whose stale contents happen to be a
valid frame header declaring content size 0, decompression fails: `*irep`
stays 0 and the target still holds its stale bytes, not `S`. -/
theorem zipZSTD_unzipZSTD_roundtrip_bug :
    (R__zipZSTD 1 8 [1, 2, 3, 4, 5, 6, 7, 8] 100 (List.replicate 100 0)
      0).irep = 33 ∧
    (R__unzipZSTD 33
      ((R__zipZSTD 1 8 [1, 2, 3, 4, 5, 6, 7, 8] 100 (List.replicate 100 0)
        0).tgt.take 33)
      8 [40, 181, 47, 253, 0, 0, 0, 0] 7).irep = 0 ∧
    (R__unzipZSTD 33
      ((R__zipZSTD 1 8 [1, 2, 3, 4, 5, 6, 7, 8] 100 (List.replicate 100 0)
        0).tgt.take 33)
      8 [40, 181, 47, 253, 0, 0, 0, 0] 7).tgt =
      [40, 181, 47, 253, 0, 0, 0, 0] := by
  decide

/-- With the same compressed bytes and the same 8-byte target buffer, a
target whose stale contents do NOT parse as a frame header round-trips
fine — the failure above is caused precisely by reading the frame content
size out of the target buffer. -/
theorem unzipZSTD_roundtrip_when_target_stale_bytes_not_a_frame :
    (R__unzipZSTD 33
      ((R__zipZSTD 1 8 [1, 2, 3, 4, 5, 6, 7, 8] 100 (List.replicate 100 0)
        0).tgt.take 33)
      8 [0, 0, 0, 0, 0, 0, 0, 0] 7).irep = 8 ∧
    (R__unzipZSTD 33
      ((R__zipZSTD 1 8 [1, 2, 3, 4, 5, 6, 7, 8] 100 (List.replicate 100 0)
        0).tgt.take 33)
      8 [0, 0, 0, 0, 0, 0, 0, 0] 7).tgt = [1, 2, 3, 4, 5, 6, 7, 8] := by
  decide
